import Mathlib

/-! # The personal namespace of the ethermint JSON-RPC service

A shallow embedding of `rpc/personal_api.go`: the lazily constructed keyring
handle (`getKeybaseInfo`), `ListAccounts`, `Sign` and `EcRecover`.

The Go code talks to three libraries that are not part of the repository: the
cosmos-sdk keyring (`keyring.NewKeyring`, `Keybase.List`, `Keybase.Sign`), the
go-ethereum crypto package (`crypto.SigToPub`, `crypto.PubkeyToAddress`) and
`accounts.TextHash`.  They are gathered in the record `Env`; every call made to
one of them with an observable effect is appended to the `trace` of the state,
so that "is invoked", "is never invoked" and "is invoked with this name" are
statements about that trace.

Bytes are natural numbers; the two places where the code does byte arithmetic
(`+= 27`, `-= 27`) reduce modulo `256`.
-/

namespace PersonalAPI

/-- A byte string (`[]byte`, `hexutil.Bytes`, `common.Address` as a slice). -/
abbrev Bytes := List Nat

/-- A key entry of the keyring (`keyring.Info`): what `GetName` and `GetPubKey` return. -/
structure Info (PK : Type) where
  name : String
  pubKey : PK
  deriving DecidableEq, Repr

/-- What a Go call of this file can end with besides a normal result: an error value handed
back by a library call and returned unchanged, an error built with `fmt.Errorf`, or a
runtime panic. -/
inductive Fault (E : Type) where
  | ext (err : E)
  | errorf (msg : String)
  | panic (msg : String)
  deriving DecidableEq, Repr

/-- The library calls the code makes, in the order it makes them. -/
inductive Call (KB : Type) where
  | newKeyring
  | list (kb : KB)
  | sign (kb : KB) (name passwd : String) (digest : Bytes)
  | sigToPub (digest sig : Bytes)
  deriving DecidableEq, Repr

/-- The libraries the file is linked against. `W` is the state of the outside world (the
configuration read by viper, the key files, the input stream), `KB` a keyring handle, `PK` a
public key of the keyring, `EPK` an ECDSA public key of go-ethereum and `E` the library
errors. -/
structure Env (W KB PK EPK E : Type) where
  /-- The call `keyring.NewKeyring(...)` with the process-wide configuration. -/
  newKeyring : W → Except E KB × W
  /-- The method `Keybase.List()`. -/
  list : KB → W → Except E (List (Info PK)) × W
  /-- The method `Keybase.Sign(name, passphrase, msg)`: signature and public key, or an error. -/
  sign : KB → String → String → Bytes → W → Except E (Bytes × PK) × W
  /-- The bytes `info.GetPubKey().Address().Bytes()`. -/
  address : PK → Bytes
  /-- The hash function Keccak256. -/
  keccak256 : Bytes → Bytes
  /-- The function `crypto.SigToPub(hash, sig)`. -/
  sigToPub : Bytes → Bytes → Except E EPK
  /-- The function `crypto.PubkeyToAddress(pub)`. -/
  pubkeyToAddress : EPK → Bytes

/-- The mutable part of a `PersonalEthAPI` value together with the world around it:
`keybase` is the field `e.cliCtx.Keybase` (`none` for nil). -/
structure State (W KB : Type) where
  keybase : Option KB
  world : W
  trace : List (Call KB)

variable {W KB PK EPK E : Type}

/-- The constant `crypto.SignatureLength`. -/
def SignatureLength : Nat := 65

/-- The constant `crypto.RecoveryIDOffset`. -/
def RecoveryIDOffset : Nat := 64

/-- The constant `common.AddressLength`. -/
def AddressLength : Nat := 20

/-- The bytes of the string `"\x19Ethereum Signed Message:\n"`. -/
def messagePrefix : Bytes :=
  [0x19, 69, 116, 104, 101, 114, 101, 117, 109, 32, 83, 105, 103, 110, 101, 100, 32,
   77, 101, 115, 115, 97, 103, 101, 58, 10]

/-- The decimal ASCII digits of a number (what `%d` prints). -/
def decimalASCII (n : Nat) : Bytes :=
  (Nat.toDigits 10 n).map Char.toNat

/-- Modelled from the spec: the input that `accounts.TextHash` of go-ethereum hashes (the
function is not under src/; the doc comments of `Sign` and `EcRecover` and spec section 4.4
give it): the prefix, the decimal length of the message, the message. -/
def textHashInput (data : Bytes) : Bytes :=
  messagePrefix ++ decimalASCII data.length ++ data

/-- Modelled from the spec: `accounts.TextHash(data)` of go-ethereum, not under src/, is
Keccak256 of `textHashInput data`. -/
def TextHash (env : Env W KB PK EPK E) (data : Bytes) : Bytes :=
  env.keccak256 (textHashInput data)

/-- Modelled from the spec: `common.BytesToAddress` of go-ethereum, not under src/. An address
is a 20-byte value (spec section 3); the library crops longer input from the left and pads
shorter input with zero bytes on the left. -/
def BytesToAddress (b : Bytes) : Bytes :=
  let b1 := if b.length > AddressLength then b.drop (b.length - AddressLength) else b
  List.replicate (AddressLength - b1.length) 0 ++ b1

/-- The statement `e.cliCtx.Keybase.List()`. -/
def keybaseList (env : Env W KB PK EPK E) (s : State W KB) :
    Except (Fault E) (List (Info PK)) × State W KB :=
  match s.keybase with
  | none => (.error (.panic "nil pointer dereference"), s)
  | some kb =>
    match env.list kb s.world with
    | (.error err, w) => (.error (.ext err), { s with world := w, trace := s.trace ++ [.list kb] })
    | (.ok infos, w) => (.ok infos, { s with world := w, trace := s.trace ++ [.list kb] })

/-- The method `getKeybaseInfo`, run by one caller at a time (the mutex `keybaseLock` is taken
on entry and released on return). -/
def getKeybaseInfo (env : Env W KB PK EPK E) (s : State W KB) :
    Except (Fault E) (List (Info PK)) × State W KB :=
  match s.keybase with
  | none =>
    match env.newKeyring s.world with
    | (.error err, w) =>
      (.error (.ext err), { s with world := w, trace := s.trace ++ [.newKeyring] })
    | (.ok keybase, w) =>
      keybaseList env { keybase := some keybase, world := w, trace := s.trace ++ [.newKeyring] }
  | some _ => keybaseList env s

/-- The method `ListAccounts`: Go returns the pair `(addrs, err)`. -/
def ListAccounts (env : Env W KB PK EPK E) (s : State W KB) :
    (List Bytes × Option (Fault E)) × State W KB :=
  match getKeybaseInfo env s with
  | (.error err, s1) => (([], some err), s1)
  | (.ok infos, s1) =>
    ((infos.foldl (fun addrs info => addrs ++ [BytesToAddress (env.address info.pubKey)]) [],
      none), s1)

/-- The loop of `Sign` over the listing: `name` starts as `""` and is overwritten at every
entry whose address bytes equal `addr`. -/
def resolveName (env : Env W KB PK EPK E) (infos : List (Info PK)) (addr : Bytes) : String :=
  infos.foldl (fun name info => if env.address info.pubKey = addr then info.name else name) ""

/-- The method `Sign`. -/
def Sign (env : Env W KB PK EPK E) (data addr : Bytes) (passwd : String) (s : State W KB) :
    Except (Fault E) Bytes × State W KB :=
  match getKeybaseInfo env s with
  | (.error err, s1) => (.error err, s1)
  | (.ok infos, s1) =>
    let name := resolveName env infos addr
    match s1.keybase with
    | none => (.error (.panic "nil pointer dereference"), s1)
    | some kb =>
      let s2 : State W KB :=
        { s1 with trace := s1.trace ++ [.sign kb name passwd (TextHash env data)] }
      match env.sign kb name passwd (TextHash env data) s1.world with
      | (.error err, w) => (.error (.ext err), { s2 with world := w })
      | (.ok (sig, _), w) =>
        match sig[RecoveryIDOffset]? with
        | none => (.error (.panic "index out of range"), { s2 with world := w })
        | some v => (.ok (sig.set RecoveryIDOffset ((v + 27) % 256)), { s2 with world := w })

/-- The method `EcRecover`. The second component of the result is the content of the
caller's slice `sig` when the call returns: a Go slice shares its backing array with the
caller, so an assignment to `sig[i]` is seen by the caller. -/
def EcRecover (env : Env W KB PK EPK E) (data sig : Bytes) (s : State W KB) :
    Except (Fault E) Bytes × Bytes × State W KB :=
  if sig.length ≠ SignatureLength then
    (.error (.errorf "signature must be 65 bytes long"), sig, s)
  else
    match sig[RecoveryIDOffset]? with
    | none => (.error (.panic "index out of range"), sig, s)
    | some v =>
      if v ≠ 27 ∧ v ≠ 28 then
        (.error (.errorf "invalid Ethereum signature (V is not 27 or 28)"), sig, s)
      else
        let sig1 := sig.set RecoveryIDOffset ((v + 256 - 27) % 256)
        let s1 : State W KB :=
          { s with trace := s.trace ++ [.sigToPub (TextHash env data) sig1] }
        match env.sigToPub (TextHash env data) sig1 with
        | .error err => (.error (.ext err), sig1, s1)
        | .ok rpk => (.ok (env.pubkeyToAddress rpk), sig1, s1)

/-- The state after `n` calls of `getKeybaseInfo` made one after the other. -/
def callsOfGetKeybaseInfo (env : Env W KB PK EPK E) : Nat → State W KB → State W KB
  | 0, s => s
  | n + 1, s => callsOfGetKeybaseInfo env n (getKeybaseInfo env s).2

/-- The number of constructor calls in a trace. -/
def constructions (t : List (Call KB)) : Nat :=
  t.countP (fun c => match c with | .newKeyring => true | _ => false)

/-! ## A small concrete world -/

/-- A 65-byte signature of the toy keyring: the key number in byte 63, its parity as V. -/
def toySig (k : Nat) : Bytes := List.replicate 63 0 ++ [k, k % 2]

/-- The address of the toy key `k`: nineteen zero bytes and `k`. -/
def toyAddress (k : Nat) : Bytes := List.replicate 19 0 ++ [k]

/-- The listing of the toy keyring: `bob` and `carol` hold the same key. -/
def toyInfos : List (Info Nat) := [⟨"alice", 1⟩, ⟨"bob", 2⟩, ⟨"carol", 2⟩]

/-- A toy world: the world state counts the constructor calls, the first of which fails; the
keyring knows three names and one passphrase, and recovery reads the key number back. -/
def toyEnv : Env Nat Nat Nat Nat String where
  newKeyring := fun w => if w = 0 then (.error "no keyring", w + 1) else (.ok 7, w + 1)
  list := fun _ w => (.ok toyInfos, w)
  sign := fun _ name passwd _ w =>
    if passwd ≠ "secret" then (.error "wrong passphrase", w)
    else if name = "alice" then (.ok (toySig 1, 1), w)
    else if name = "bob" then (.ok (toySig 2, 2), w)
    else if name = "carol" then (.ok (toySig 2, 2), w)
    else (.error "key not found", w)
  address := toyAddress
  keccak256 := fun b => [b.sum % 256]
  sigToPub := fun _ sig =>
    if sig.length = 65 ∧ sig.getD 64 2 ≤ 1 then .ok (sig.getD 63 0) else .error "recovery failed"
  pubkeyToAddress := toyAddress

/-- A fresh API value in a world where the constructor has already failed once. -/
def toyState : State Nat Nat := { keybase := none, world := 1, trace := [] }

/-- A fresh API value in a world where the constructor has not been called yet. -/
def toyState0 : State Nat Nat := { keybase := none, world := 0, trace := [] }

/-! ## Lemmas on the keyring access path -/

theorem keybaseList_keybase (env : Env W KB PK EPK E) (s : State W KB) :
    (keybaseList env s).2.keybase = s.keybase := by
  unfold keybaseList
  cases hk : s.keybase with
  | none => simp [hk]
  | some kb =>
    simp only
    rcases hl : env.list kb s.world with ⟨r, w⟩
    cases r <;> simp [hk]

theorem keybaseList_constructions (env : Env W KB PK EPK E) (s : State W KB) :
    constructions (keybaseList env s).2.trace = constructions s.trace := by
  unfold keybaseList
  cases hk : s.keybase with
  | none => simp
  | some kb =>
    simp only
    rcases hl : env.list kb s.world with ⟨r, w⟩
    cases r <;> simp [constructions, List.countP_append]

theorem keybaseList_ok (env : Env W KB PK EPK E) (s s1 : State W KB) (infos : List (Info PK))
    (h : keybaseList env s = (.ok infos, s1)) :
    ∃ kb, s.keybase = some kb ∧ s1.keybase = some kb := by
  have hkeep := keybaseList_keybase env s
  rw [h] at hkeep
  cases hk : s.keybase with
  | none => simp [keybaseList, hk] at h
  | some kb => exact ⟨kb, rfl, by simpa [hk] using hkeep⟩

theorem getKeybaseInfo_ok (env : Env W KB PK EPK E) (s s1 : State W KB)
    (infos : List (Info PK)) (h : getKeybaseInfo env s = (.ok infos, s1)) :
    ∃ kb, s1.keybase = some kb := by
  unfold getKeybaseInfo at h
  cases hk : s.keybase with
  | none =>
    rw [hk] at h
    simp only at h
    rcases hn : env.newKeyring s.world with ⟨r, w⟩
    rw [hn] at h
    cases r with
    | error err => simp at h
    | ok kb =>
      simp only at h
      obtain ⟨kb1, -, h1⟩ := keybaseList_ok env _ s1 infos h
      exact ⟨kb1, h1⟩
  | some kb =>
    rw [hk] at h
    simp only at h
    obtain ⟨kb1, -, h1⟩ := keybaseList_ok env _ s1 infos h
    exact ⟨kb1, h1⟩

theorem getKeybaseInfo_of_some (env : Env W KB PK EPK E) (s : State W KB) (kb : KB)
    (hk : s.keybase = some kb) : getKeybaseInfo env s = keybaseList env s := by
  unfold getKeybaseInfo
  rw [hk]

theorem calls_of_some (env : Env W KB PK EPK E) (kb : KB) (n : Nat) :
    ∀ s : State W KB, s.keybase = some kb →
      (callsOfGetKeybaseInfo env n s).keybase = some kb ∧
      constructions (callsOfGetKeybaseInfo env n s).trace = constructions s.trace := by
  induction n with
  | zero => intro s hk; exact ⟨hk, rfl⟩
  | succ n ih =>
    intro s hk
    have hstep : (getKeybaseInfo env s).2.keybase = some kb := by
      rw [getKeybaseInfo_of_some env s kb hk, keybaseList_keybase, hk]
    have hcount : constructions (getKeybaseInfo env s).2.trace = constructions s.trace := by
      rw [getKeybaseInfo_of_some env s kb hk, keybaseList_constructions]
    obtain ⟨h1, h2⟩ := ih _ hstep
    exact ⟨h1, h2.trans hcount⟩

/-! ## Lemmas on the two loops -/

theorem foldl_append_singleton {α β : Type} (f : α → β) (l : List α) (acc : List β) :
    l.foldl (fun addrs x => addrs ++ [f x]) acc = acc ++ l.map f := by
  induction l generalizing acc with
  | nil => simp
  | cons x xs ih => simp [ih]

theorem BytesToAddress_length (b : Bytes) : (BytesToAddress b).length = 20 := by
  unfold BytesToAddress AddressLength
  by_cases h : b.length > 20
  · simp [h]; omega
  · simp [h]; omega

theorem BytesToAddress_of_length (b : Bytes) (h : b.length = 20) : BytesToAddress b = b := by
  unfold BytesToAddress AddressLength
  simp [h]

/-- The loop of `Sign` started from any name. -/
theorem resolve_foldl_no_match (env : Env W KB PK EPK E) (addr : Bytes)
    (infos : List (Info PK)) (start : String)
    (h : ∀ info ∈ infos, env.address info.pubKey ≠ addr) :
    infos.foldl (fun name info => if env.address info.pubKey = addr then info.name else name)
      start = start := by
  induction infos generalizing start with
  | nil => rfl
  | cons x xs ih =>
    have hx : env.address x.pubKey ≠ addr := h x (List.mem_cons_self _ _)
    have hxs : ∀ info ∈ xs, env.address info.pubKey ≠ addr :=
      fun info hi => h info (List.mem_cons_of_mem _ hi)
    simp [List.foldl_cons, hx, ih _ hxs]

theorem resolveName_no_match (env : Env W KB PK EPK E) (addr : Bytes) (infos : List (Info PK))
    (h : ∀ info ∈ infos, env.address info.pubKey ≠ addr) : resolveName env infos addr = "" :=
  resolve_foldl_no_match env addr infos "" h

theorem resolveName_last_match (env : Env W KB PK EPK E) (addr : Bytes)
    (pre post : List (Info PK)) (info : Info PK) (hm : env.address info.pubKey = addr)
    (hpost : ∀ j ∈ post, env.address j.pubKey ≠ addr) :
    resolveName env (pre ++ info :: post) addr = info.name := by
  unfold resolveName
  rw [List.foldl_append, List.foldl_cons]
  simp only [hm, if_true]
  exact resolve_foldl_no_match env addr post info.name hpost

/-- Every name the loop can produce for a managed address is the name of a matching entry. -/
theorem resolveName_mem (env : Env W KB PK EPK E) (addr : Bytes) (infos : List (Info PK))
    (h : ∃ info ∈ infos, env.address info.pubKey = addr) :
    ∃ info ∈ infos, env.address info.pubKey = addr ∧ resolveName env infos addr = info.name := by
  induction infos using List.reverseRecOn with
  | nil => simp at h
  | append_singleton xs x ih =>
    by_cases hx : env.address x.pubKey = addr
    · refine ⟨x, by simp, hx, ?_⟩
      have := resolveName_last_match env addr xs [] x hx (by simp)
      simpa using this
    · obtain ⟨info, hmem, hinfo⟩ := h
      have hin : info ∈ xs := by
        rcases List.mem_append.mp hmem with h1 | h1
        · exact h1
        · simp at h1; subst h1; exact absurd hinfo hx
      obtain ⟨j, hj, hja, hjn⟩ := ih ⟨info, hin, hinfo⟩
      refine ⟨j, List.mem_append_left _ hj, hja, ?_⟩
      unfold resolveName at hjn ⊢
      rw [List.foldl_append]
      simp [hx, hjn]

/-! ## Lemmas on `Sign` and `EcRecover` -/

/-- The result of `Sign` once the listing and the keyring's answer are known. -/
theorem Sign_of_signed (env : Env W KB PK EPK E) (data addr : Bytes) (passwd : String)
    (s s1 : State W KB) (infos : List (Info PK)) (kb : KB) (sig : Bytes) (pk : PK) (w : W)
    (v : Nat) (hinfo : getKeybaseInfo env s = (.ok infos, s1)) (hkb : s1.keybase = some kb)
    (hsign : env.sign kb (resolveName env infos addr) passwd (TextHash env data) s1.world
      = (.ok (sig, pk), w))
    (hv : sig[RecoveryIDOffset]? = some v) :
    Sign env data addr passwd s =
      (.ok (sig.set RecoveryIDOffset ((v + 27) % 256)),
        { keybase := some kb, world := w,
          trace := s1.trace ++
            [.sign kb (resolveName env infos addr) passwd (TextHash env data)] }) := by
  unfold Sign
  rw [hinfo]
  simp only [hkb, hsign, hv]

/-- The result of `Sign` when the keyring refuses to sign. -/
theorem Sign_of_sign_error (env : Env W KB PK EPK E) (data addr : Bytes) (passwd : String)
    (s s1 : State W KB) (infos : List (Info PK)) (kb : KB) (err : E) (w : W)
    (hinfo : getKeybaseInfo env s = (.ok infos, s1)) (hkb : s1.keybase = some kb)
    (hsign : env.sign kb (resolveName env infos addr) passwd (TextHash env data) s1.world
      = (.error err, w)) :
    Sign env data addr passwd s =
      (.error (.ext err),
        { keybase := some kb, world := w,
          trace := s1.trace ++
            [.sign kb (resolveName env infos addr) passwd (TextHash env data)] }) := by
  unfold Sign
  rw [hinfo]
  simp only [hkb, hsign]

/-- The calls `Sign` has made when it returns, once the listing is known. -/
theorem Sign_trace (env : Env W KB PK EPK E) (data addr : Bytes) (passwd : String)
    (s s1 : State W KB) (infos : List (Info PK)) (kb : KB)
    (hinfo : getKeybaseInfo env s = (.ok infos, s1)) (hkb : s1.keybase = some kb) :
    (Sign env data addr passwd s).2.trace =
      s1.trace ++ [.sign kb (resolveName env infos addr) passwd (TextHash env data)] := by
  unfold Sign
  rw [hinfo]
  simp only [hkb]
  rcases hs : env.sign kb (resolveName env infos addr) passwd (TextHash env data) s1.world
    with ⟨r, w⟩
  cases r with
  | error err => rfl
  | ok p =>
    obtain ⟨sig, pk⟩ := p
    simp only
    cases sig[RecoveryIDOffset]? <;> rfl

/-- The result of `EcRecover` on a signature that passes both checks. -/
theorem EcRecover_of_legacy (env : Env W KB PK EPK E) (data sig : Bytes) (s : State W KB)
    (v : Nat) (hlen : sig.length = 65) (hv : sig[RecoveryIDOffset]? = some v)
    (h : v = 27 ∨ v = 28) :
    EcRecover env data sig s =
      match env.sigToPub (TextHash env data) (sig.set RecoveryIDOffset (v - 27)) with
      | .error err =>
        (.error (.ext err), sig.set RecoveryIDOffset (v - 27),
          { s with trace := s.trace ++
              [.sigToPub (TextHash env data) (sig.set RecoveryIDOffset (v - 27))] })
      | .ok rpk =>
        (.ok (env.pubkeyToAddress rpk), sig.set RecoveryIDOffset (v - 27),
          { s with trace := s.trace ++
              [.sigToPub (TextHash env data) (sig.set RecoveryIDOffset (v - 27))] }) := by
  have hmod : (v + 256 - 27) % 256 = v - 27 := by rcases h with h | h <;> subst h <;> rfl
  have hnot : ¬ (v ≠ 27 ∧ v ≠ 28) := by omega
  unfold EcRecover
  simp only [hlen, SignatureLength, ne_eq, not_true_eq_false, if_false, hv, hmod]
  rw [if_neg (by simpa using hnot)]

/-- The result of `EcRecover` on a signature that fails a check. -/
theorem EcRecover_of_malformed (env : Env W KB PK EPK E) (data sig : Bytes) (s : State W KB)
    (h : sig.length ≠ 65 ∨ (sig[RecoveryIDOffset]? ≠ some 27 ∧ sig[RecoveryIDOffset]? ≠ some 28)) :
    EcRecover env data sig s =
      (.error (.errorf (if sig.length ≠ 65 then "signature must be 65 bytes long"
        else "invalid Ethereum signature (V is not 27 or 28)")), sig, s) := by
  unfold EcRecover SignatureLength
  by_cases hlen : sig.length = 65
  · have hv := h.resolve_left (by simpa using hlen)
    have hlt : RecoveryIDOffset < sig.length := by rw [hlen]; decide
    have hget : sig[RecoveryIDOffset]? = some sig[RecoveryIDOffset] :=
      List.getElem?_eq_getElem hlt
    rw [hget] at hv
    simp only [hlen, ne_eq, not_true_eq_false, if_false, hget]
    have h27 : sig[RecoveryIDOffset] ≠ 27 := fun e => hv.1 (by rw [e])
    have h28 : sig[RecoveryIDOffset] ≠ 28 := fun e => hv.2 (by rw [e])
    simp [h27, h28]
  · simp [hlen]

/-! ## Lemmas on writing one byte of a slice -/

theorem set_of_getElem? {α : Type} (l : List α) (i : Nat) (a : α) (h : l[i]? = some a) :
    l.set i a = l := by
  apply List.ext_getElem?
  intro j
  by_cases hj : i = j
  · subst hj
    rw [List.getElem?_set_self', h]
    rfl
  · rw [List.getElem?_set_ne hj]

theorem take_set_self {α : Type} (l : List α) (i : Nat) (a : α) :
    (l.set i a).take i = l.take i := by
  apply List.ext_getElem?
  intro j
  by_cases hj : j < i
  · rw [List.getElem?_take_of_lt hj, List.getElem?_take_of_lt hj,
      List.getElem?_set_ne (by omega)]
  · rw [List.getElem?_take_eq_none (by omega), List.getElem?_take_eq_none (by omega)]

/-! ## The round trip of `Sign` and `EcRecover` -/

/-- C1: when the listing succeeds, the address is that of some listed entry and, for every
listed entry with that address, the keyring signs the digest under the entry's name with the
given passphrase, returning a 65-byte signature with V in {0, 1} from which recovery gives
back the entry's address, then `Sign` succeeds and `EcRecover` on the same message and the
signature `Sign` returned succeeds with exactly that address. -/
theorem EcRecover_Sign_roundtrip (env : Env W KB PK EPK E) (data addr : Bytes)
    (passwd : String) (s s1 : State W KB) (infos : List (Info PK))
    (hlist : getKeybaseInfo env s = (.ok infos, s1))
    (hmanaged : ∃ info ∈ infos, env.address info.pubKey = addr)
    (hkeystore : ∀ kb, s1.keybase = some kb → ∀ info ∈ infos, env.address info.pubKey = addr →
      ∃ sig pk w,
        env.sign kb info.name passwd (TextHash env data) s1.world = (.ok (sig, pk), w) ∧
        sig.length = 65 ∧ (sig[64]? = some 0 ∨ sig[64]? = some 1) ∧
        ∃ rpk, env.sigToPub (TextHash env data) sig = .ok rpk ∧
          env.pubkeyToAddress rpk = env.address info.pubKey) :
    ∃ sig s2, Sign env data addr passwd s = (.ok sig, s2) ∧
      (EcRecover env data sig s2).1 = .ok addr := by
  obtain ⟨kb, hkb⟩ := getKeybaseInfo_ok env s s1 infos hlist
  obtain ⟨info, hmem, haddr, hname⟩ := resolveName_mem env addr infos hmanaged
  obtain ⟨sig, pk, w, hsign, hlen, hv, rpk, hrec, hpub⟩ := hkeystore kb hkb info hmem haddr
  rw [← hname] at hsign
  obtain ⟨v, hv1, hv2⟩ : ∃ v, sig[RecoveryIDOffset]? = some v ∧ (v = 0 ∨ v = 1) := by
    rcases hv with h | h
    · exact ⟨0, h, Or.inl rfl⟩
    · exact ⟨1, h, Or.inr rfl⟩
  have hmod : (v + 27) % 256 = v + 27 := by rcases hv2 with h | h <;> subst h <;> rfl
  have hS := Sign_of_signed env data addr passwd s s1 infos kb sig pk w v hlist hkb hsign hv1
  rw [hmod] at hS
  refine ⟨_, _, hS, ?_⟩
  have hlt : RecoveryIDOffset < sig.length := by rw [hlen]; decide
  have hE := EcRecover_of_legacy env data (sig.set RecoveryIDOffset (v + 27))
    { keybase := some kb, world := w,
      trace := s1.trace ++ [.sign kb (resolveName env infos addr) passwd (TextHash env data)] }
    (v + 27) (by simpa using hlen) (List.getElem?_set_self hlt) (by omega)
  have hback : (sig.set RecoveryIDOffset (v + 27)).set RecoveryIDOffset (v + 27 - 27) = sig := by
    rw [List.set_set, Nat.add_sub_cancel]
    exact set_of_getElem? sig _ v hv1
  rw [hback, hrec] at hE
  rw [hE]
  show Except.ok (env.pubkeyToAddress rpk) = Except.ok addr
  rw [hpub, haddr]

/-- The round trip on the toy keyring, for the address shared by `bob` and `carol`. -/
theorem EcRecover_Sign_roundtrip_witness :
    ∃ sig s2, Sign toyEnv [104, 101, 108, 108, 111] (toyAddress 2) "secret" toyState
        = (.ok sig, s2) ∧
      (EcRecover toyEnv [104, 101, 108, 108, 111] sig s2).1 = .ok (toyAddress 2) :=
  EcRecover_Sign_roundtrip toyEnv [104, 101, 108, 108, 111] (toyAddress 2) "secret" toyState
    { keybase := some 7, world := 2, trace := [.newKeyring, .list 7] } toyInfos rfl
    ⟨⟨"bob", 2⟩, by decide, rfl⟩
    (by
      intro kb _ info hmem haddr
      refine ⟨toySig 2, 2, 2, ?_, rfl, Or.inl rfl, 2, rfl, ?_⟩
      · simp only [toyInfos, List.mem_cons, List.mem_singleton, List.not_mem_nil, or_false]
          at hmem
        rcases hmem with h | h | h <;> subst h
        · exact absurd haddr (by decide)
        · rfl
        · rfl
      · exact haddr.symm)

/-! ## The signature `Sign` returns -/

/-- C2: every call of `Sign` that succeeds has obtained the listing and a signature from the
keyring, and when that signature is 65 bytes long with V in {0, 1}, the signature `Sign`
returns is 65 bytes long, agrees with the keyring's on the first 64 bytes, and has at index
64 the keyring's V plus 27, which is 27 or 28. -/
theorem Sign_returns_legacy_signature (env : Env W KB PK EPK E) (data addr : Bytes)
    (passwd : String) (s s2 : State W KB) (out : Bytes)
    (hok : Sign env data addr passwd s = (.ok out, s2)) :
    ∃ infos s1 kb sig pk,
      getKeybaseInfo env s = (.ok infos, s1) ∧ s1.keybase = some kb ∧
      env.sign kb (resolveName env infos addr) passwd (TextHash env data) s1.world
        = (.ok (sig, pk), s2.world) ∧
      (sig.length = 65 → ∀ v, sig[64]? = some v → v = 0 ∨ v = 1 →
        out.length = 65 ∧ out.take 64 = sig.take 64 ∧ out[64]? = some (v + 27) ∧
        (out[64]? = some 27 ∨ out[64]? = some 28)) := by
  unfold Sign at hok
  rcases hg : getKeybaseInfo env s with ⟨r, s1⟩
  rw [hg] at hok
  cases r with
  | error err => simp at hok
  | ok infos =>
    obtain ⟨kb, hkb⟩ := getKeybaseInfo_ok env s s1 infos hg
    simp only [hkb] at hok
    rcases hs : env.sign kb (resolveName env infos addr) passwd (TextHash env data) s1.world
      with ⟨r2, w⟩
    rw [hs] at hok
    cases r2 with
    | error err => simp at hok
    | ok p =>
      obtain ⟨sig, pk⟩ := p
      simp only at hok
      cases hv : sig[RecoveryIDOffset]? with
      | none => rw [hv] at hok; simp at hok
      | some v0 =>
        rw [hv] at hok
        simp only [Prod.mk.injEq, Except.ok.injEq] at hok
        obtain ⟨hout, hs2⟩ := hok
        refine ⟨infos, s1, kb, sig, pk, rfl, hkb, ?_, ?_⟩
        · rw [← hs2]; exact hs
        · intro hlen v hv' hcanon
          have hvv : v0 = v := by
            have : some v0 = some v := by rw [← hv, ← hv']; rfl
            exact Option.some.inj this
          subst hvv
          have hmod : (v0 + 27) % 256 = v0 + 27 := by
            rcases hcanon with h | h <;> subst h <;> rfl
          rw [hmod] at hout
          have hlt : RecoveryIDOffset < sig.length := by rw [hlen]; decide
          have h64 : out[64]? = some (v0 + 27) := by
            rw [← hout]; exact List.getElem?_set_self hlt
          refine ⟨by rw [← hout]; simpa using hlen, ?_, h64, ?_⟩
          · rw [← hout]; exact take_set_self sig 64 (v0 + 27)
          · rcases hcanon with h | h <;> subst h
            · exact Or.inl h64
            · exact Or.inr h64

/-- The signature returned for `alice` on the toy keyring. -/
theorem Sign_returns_legacy_signature_witness :
    ∃ infos s1 kb sig pk,
      getKeybaseInfo toyEnv toyState = (.ok infos, s1) ∧ s1.keybase = some kb ∧
      toyEnv.sign kb (resolveName toyEnv infos (toyAddress 1)) "secret"
          (TextHash toyEnv [104, 105]) s1.world
        = (.ok (sig, pk), 2) ∧
      (sig.length = 65 → ∀ v, sig[64]? = some v → v = 0 ∨ v = 1 →
        ((toySig 1).set 64 28).length = 65 ∧
        ((toySig 1).set 64 28).take 64 = sig.take 64 ∧
        ((toySig 1).set 64 28)[64]? = some (v + 27) ∧
        (((toySig 1).set 64 28)[64]? = some 27 ∨ ((toySig 1).set 64 28)[64]? = some 28)) :=
  Sign_returns_legacy_signature toyEnv [104, 105] (toyAddress 1) "secret" toyState
    { keybase := some 7, world := 2,
      trace := [.newKeyring, .list 7, .sign 7 "alice" "secret" (TextHash toyEnv [104, 105])] }
    ((toySig 1).set 64 28) rfl

/-! ## Malformed signatures -/

/-- C3: for a signature whose length is not 65, or whose length is 65 but whose byte at
index 64 is neither 27 nor 28, `EcRecover` returns an error built by `fmt.Errorf` and makes
no library call at all: the trace is the one it started with, so `SigToPub` is not invoked. -/
theorem EcRecover_rejects_without_recovery (env : Env W KB PK EPK E) (data sig : Bytes)
    (s : State W KB)
    (h : sig.length ≠ 65 ∨ (sig.length = 65 ∧ sig[64]? ≠ some 27 ∧ sig[64]? ≠ some 28)) :
    (∃ msg, (EcRecover env data sig s).1 = .error (.errorf msg)) ∧
    (EcRecover env data sig s).2.2.trace = s.trace ∧
    ∀ digest g, Call.sigToPub digest g ∉ (EcRecover env data sig s).2.2.trace.drop s.trace.length := by
  have hE := EcRecover_of_malformed env data sig s
    (h.elim Or.inl (fun h2 => Or.inr h2.2))
  rw [hE]
  exact ⟨⟨_, rfl⟩, rfl, by simp⟩

/-- The rejections of a 64-byte signature and of 65-byte signatures with V = 0, 1 and 29. -/
theorem EcRecover_rejects_without_recovery_witness :
    (EcRecover toyEnv [104, 105] (List.replicate 64 0) toyState).2.2.trace = [] ∧
    (EcRecover toyEnv [104, 105] (toySig 2) toyState).2.2.trace = [] ∧
    (EcRecover toyEnv [104, 105] (toySig 1) toyState).2.2.trace = [] ∧
    (∃ msg, (EcRecover toyEnv [104, 105] ((toySig 2).set 64 29) toyState).1
      = .error (.errorf msg)) ∧
    (EcRecover toyEnv [104, 105] ((toySig 2).set 64 29) toyState).2.2.trace = [] :=
  ⟨(EcRecover_rejects_without_recovery toyEnv [104, 105] (List.replicate 64 0) toyState
      (Or.inl (by decide))).2.1,
   (EcRecover_rejects_without_recovery toyEnv [104, 105] (toySig 2) toyState
      (Or.inr ⟨rfl, by decide, by decide⟩)).2.1,
   (EcRecover_rejects_without_recovery toyEnv [104, 105] (toySig 1) toyState
      (Or.inr ⟨rfl, by decide, by decide⟩)).2.1,
   (EcRecover_rejects_without_recovery toyEnv [104, 105] ((toySig 2).set 64 29) toyState
      (Or.inr ⟨rfl, by decide, by decide⟩)).1,
   (EcRecover_rejects_without_recovery toyEnv [104, 105] ((toySig 2).set 64 29) toyState
      (Or.inr ⟨rfl, by decide, by decide⟩)).2.1⟩

/-! ## The caller's signature buffer -/

/-- C5, as stated, fails: on a well-formed legacy signature of the toy keyring `EcRecover`
succeeds, and the caller's buffer, which held V = 27 at index 64, holds 0 there when the
call returns. -/
theorem EcRecover_overwrites_caller_buffer :
    (EcRecover toyEnv [104, 105] ((toySig 2).set 64 27) toyState).1 = .ok (toyAddress 2) ∧
    ((toySig 2).set 64 27)[64]? = some 27 ∧
    (EcRecover toyEnv [104, 105] ((toySig 2).set 64 27) toyState).2.1[64]? = some 0 ∧
    (EcRecover toyEnv [104, 105] ((toySig 2).set 64 27) toyState).2.1
      ≠ (toySig 2).set 64 27 :=
  ⟨rfl, by decide, by decide, by decide⟩

/-- C5, amended: the caller's buffer keeps its length and its first 64 bytes; it is unchanged
when the call is rejected for the length or for V; and when both checks pass its byte at
index 64 is overwritten in place with V - 27, whatever recovery then returns. -/
theorem EcRecover_buffer_after_call (env : Env W KB PK EPK E) (data sig : Bytes)
    (s : State W KB) :
    (EcRecover env data sig s).2.1.length = sig.length ∧
    (EcRecover env data sig s).2.1.take 64 = sig.take 64 ∧
    ((sig.length ≠ 65 ∨ (sig[64]? ≠ some 27 ∧ sig[64]? ≠ some 28)) →
      (EcRecover env data sig s).2.1 = sig) ∧
    (∀ v, sig.length = 65 → sig[64]? = some v → v = 27 ∨ v = 28 →
      (EcRecover env data sig s).2.1 = sig.set 64 (v - 27)) := by
  have hbad : (sig.length ≠ 65 ∨ (sig[64]? ≠ some 27 ∧ sig[64]? ≠ some 28)) →
      (EcRecover env data sig s).2.1 = sig := by
    intro h
    rw [EcRecover_of_malformed env data sig s h]
  have hgood : ∀ v, sig.length = 65 → sig[64]? = some v → v = 27 ∨ v = 28 →
      (EcRecover env data sig s).2.1 = sig.set 64 (v - 27) := by
    intro v hlen hv h
    rw [EcRecover_of_legacy env data sig s v hlen hv h]
    cases env.sigToPub (TextHash env data) (sig.set RecoveryIDOffset (v - 27)) <;> rfl
  by_cases h : sig.length ≠ 65 ∨ (sig[64]? ≠ some 27 ∧ sig[64]? ≠ some 28)
  · exact ⟨by rw [hbad h], by rw [hbad h], hbad, hgood⟩
  · have hlen : sig.length = 65 := by
      by_contra hne
      exact h (Or.inl hne)
    obtain ⟨v, hv, hvv⟩ : ∃ v, sig[64]? = some v ∧ (v = 27 ∨ v = 28) := by
      by_cases h27 : sig[64]? = some 27
      · exact ⟨27, h27, Or.inl rfl⟩
      · by_cases h28 : sig[64]? = some 28
        · exact ⟨28, h28, Or.inr rfl⟩
        · exact absurd (Or.inr ⟨h27, h28⟩) h
    have hres := hgood v hlen hv hvv
    refine ⟨by rw [hres, List.length_set], by rw [hres]; exact take_set_self sig 64 (v - 27),
      hbad, hgood⟩

/-- The buffer after a successful call on the toy keyring: V = 28 has become 1. -/
theorem EcRecover_buffer_after_call_witness :
    (EcRecover toyEnv [104, 105] ((toySig 1).set 64 28) toyState).2.1 = toySig 1 :=
  ((EcRecover_buffer_after_call toyEnv [104, 105] ((toySig 1).set 64 28) toyState).2.2.2
    28 rfl (by decide) (Or.inr rfl)).trans (by decide)

/-! ## An address that no entry has -/

/-- C4, as stated, fails: no entry of the toy listing has the requested address, and `Sign`
still calls the keyring's sign operation, with the empty name; the error it returns is the
keyring's. -/
theorem Sign_unknown_address_reaches_keyring :
    (∀ info ∈ toyInfos, toyEnv.address info.pubKey ≠ toyAddress 9) ∧
    (Sign toyEnv [104, 105] (toyAddress 9) "secret" toyState).2.trace
      = [.newKeyring, .list 7, .sign 7 "" "secret" (TextHash toyEnv [104, 105])] ∧
    (Sign toyEnv [104, 105] (toyAddress 9) "secret" toyState).1
      = .error (.ext "key not found") :=
  ⟨by decide, by decide, rfl⟩

/-- C4, amended: when the listing succeeds and no entry has the requested address, `Sign`
calls the keyring's sign operation once, with the empty name, the passphrase and the digest
of the message, and when that call fails `Sign` fails with the keyring's error. -/
theorem Sign_unknown_address_signs_with_empty_name (env : Env W KB PK EPK E)
    (data addr : Bytes) (passwd : String) (s s1 : State W KB) (infos : List (Info PK))
    (hlist : getKeybaseInfo env s = (.ok infos, s1))
    (hno : ∀ info ∈ infos, env.address info.pubKey ≠ addr) :
    ∃ kb, s1.keybase = some kb ∧
      (Sign env data addr passwd s).2.trace
        = s1.trace ++ [.sign kb "" passwd (TextHash env data)] ∧
      ∀ err w, env.sign kb "" passwd (TextHash env data) s1.world = (.error err, w) →
        (Sign env data addr passwd s).1 = .error (.ext err) := by
  obtain ⟨kb, hkb⟩ := getKeybaseInfo_ok env s s1 infos hlist
  have hname := resolveName_no_match env addr infos hno
  refine ⟨kb, hkb, ?_, ?_⟩
  · rw [Sign_trace env data addr passwd s s1 infos kb hlist hkb, hname]
  · intro err w hsign
    rw [← hname] at hsign
    rw [Sign_of_sign_error env data addr passwd s s1 infos kb err w hlist hkb hsign]

/-- The call made on the toy keyring for an address that no entry has. -/
theorem Sign_unknown_address_signs_with_empty_name_witness :
    ∃ kb, (some 7 : Option Nat) = some kb ∧
      (Sign toyEnv [104, 105] (toyAddress 9) "secret" toyState).2.trace
        = [.newKeyring, .list 7] ++ [.sign kb "" "secret" (TextHash toyEnv [104, 105])] ∧
      ∀ err w, toyEnv.sign kb "" "secret" (TextHash toyEnv [104, 105]) 2 = (.error err, w) →
        (Sign toyEnv [104, 105] (toyAddress 9) "secret" toyState).1 = .error (.ext err) :=
  Sign_unknown_address_signs_with_empty_name toyEnv [104, 105] (toyAddress 9) "secret" toyState
    { keybase := some 7, world := 2, trace := [.newKeyring, .list 7] } toyInfos rfl
    (by decide)

/-! ## Two entries with the same address -/

/-- C9, as stated, fails: in the toy listing `bob` is the first entry with the requested
address and `carol` the second, and `Sign` calls the keyring with the name `carol`. -/
theorem Sign_tie_signs_with_last_entry :
    toyInfos.filter (fun info => decide (toyEnv.address info.pubKey = toyAddress 2))
      = [⟨"bob", 2⟩, ⟨"carol", 2⟩] ∧
    (Sign toyEnv [104, 105] (toyAddress 2) "secret" toyState).2.trace
      = [.newKeyring, .list 7, .sign 7 "carol" "secret" (TextHash toyEnv [104, 105])] ∧
    Call.sign 7 "bob" "secret" (TextHash toyEnv [104, 105])
      ∉ (Sign toyEnv [104, 105] (toyAddress 2) "secret" toyState).2.trace :=
  ⟨by decide, by decide, by decide⟩

/-- C9, amended: when the listing succeeds, `Sign` calls the keyring's sign operation with
the name of the last entry in listing order whose address equals the requested one. -/
theorem Sign_signs_with_last_match (env : Env W KB PK EPK E) (data addr : Bytes)
    (passwd : String) (s s1 : State W KB) (pre post : List (Info PK)) (info : Info PK)
    (hlist : getKeybaseInfo env s = (.ok (pre ++ info :: post), s1))
    (hmatch : env.address info.pubKey = addr)
    (hlast : ∀ j ∈ post, env.address j.pubKey ≠ addr) :
    ∃ kb, s1.keybase = some kb ∧
      (Sign env data addr passwd s).2.trace
        = s1.trace ++ [.sign kb info.name passwd (TextHash env data)] := by
  obtain ⟨kb, hkb⟩ := getKeybaseInfo_ok env s s1 _ hlist
  refine ⟨kb, hkb, ?_⟩
  rw [Sign_trace env data addr passwd s s1 _ kb hlist hkb,
    resolveName_last_match env addr pre post info hmatch hlast]

/-- The name used on the toy keyring for the address shared by `bob` and `carol`. -/
theorem Sign_signs_with_last_match_witness :
    ∃ kb, (some 7 : Option Nat) = some kb ∧
      (Sign toyEnv [104, 105] (toyAddress 2) "secret" toyState).2.trace
        = [.newKeyring, .list 7] ++ [.sign kb "carol" "secret" (TextHash toyEnv [104, 105])] :=
  Sign_signs_with_last_match toyEnv [104, 105] (toyAddress 2) "secret" toyState
    { keybase := some 7, world := 2, trace := [.newKeyring, .list 7] }
    [⟨"alice", 1⟩, ⟨"bob", 2⟩] [] ⟨"carol", 2⟩ rfl rfl (by decide)

/-! ## The digest -/

/-- C6: the digest of a message is Keccak256 of the prefix, the decimal length and the
message; it is the digest in the call of the keyring's sign operation that `Sign` makes once
the listing has succeeded, and the digest in the call of `SigToPub` that `EcRecover` makes
once the signature has passed both checks; for the five bytes of `hello` the hashed input is
the byte string `\x19Ethereum Signed Message:\n5hello`. -/
theorem Sign_EcRecover_digest (env : Env W KB PK EPK E) (data : Bytes) :
    TextHash env data = env.keccak256 (messagePrefix ++ decimalASCII data.length ++ data) ∧
    (∀ (addr : Bytes) (passwd : String) (s s1 : State W KB) (infos : List (Info PK)),
      getKeybaseInfo env s = (.ok infos, s1) →
      ∃ kb name, (Sign env data addr passwd s).2.trace = s1.trace ++
        [.sign kb name passwd
          (env.keccak256 (messagePrefix ++ decimalASCII data.length ++ data))]) ∧
    (∀ (sig : Bytes) (s : State W KB), sig.length = 65 →
      sig[64]? = some 27 ∨ sig[64]? = some 28 →
      ∃ g, (EcRecover env data sig s).2.2.trace = s.trace ++
        [.sigToPub (env.keccak256 (messagePrefix ++ decimalASCII data.length ++ data)) g]) ∧
    messagePrefix = "\x19Ethereum Signed Message:\n".toUTF8.data.toList.map UInt8.toNat ∧
    textHashInput [104, 101, 108, 108, 111]
      = "\x19Ethereum Signed Message:\n5hello".toUTF8.data.toList.map UInt8.toNat := by
  refine ⟨rfl, ?_, ?_, rfl, rfl⟩
  · intro addr passwd s s1 infos hlist
    obtain ⟨kb, hkb⟩ := getKeybaseInfo_ok env s s1 infos hlist
    exact ⟨kb, _, Sign_trace env data addr passwd s s1 infos kb hlist hkb⟩
  · intro sig s hlen hv
    obtain ⟨v, hv1, hv2⟩ : ∃ v, sig[RecoveryIDOffset]? = some v ∧ (v = 27 ∨ v = 28) := by
      rcases hv with h | h
      · exact ⟨27, h, Or.inl rfl⟩
      · exact ⟨28, h, Or.inr rfl⟩
    rw [EcRecover_of_legacy env data sig s v hlen hv1 hv2]
    refine ⟨sig.set RecoveryIDOffset (v - 27), ?_⟩
    cases env.sigToPub (TextHash env data) (sig.set RecoveryIDOffset (v - 27)) <;> rfl

/-- The digests passed on the toy keyring for the message `hello`, whose hashed input sums
to 68 modulo 256. -/
theorem Sign_EcRecover_digest_witness :
    (∃ kb name, (Sign toyEnv [104, 101, 108, 108, 111] (toyAddress 1) "secret" toyState).2.trace
      = [.newKeyring, .list 7] ++ [.sign kb name "secret"
          (toyEnv.keccak256 (messagePrefix ++ decimalASCII 5 ++ [104, 101, 108, 108, 111]))]) ∧
    (∃ g, (EcRecover toyEnv [104, 101, 108, 108, 111] ((toySig 1).set 64 28) toyState).2.2.trace
      = [] ++ [.sigToPub
          (toyEnv.keccak256 (messagePrefix ++ decimalASCII 5 ++ [104, 101, 108, 108, 111])) g]) :=
  ⟨(Sign_EcRecover_digest toyEnv [104, 101, 108, 108, 111]).2.1 (toyAddress 1) "secret"
      toyState { keybase := some 7, world := 2, trace := [.newKeyring, .list 7] } toyInfos rfl,
   (Sign_EcRecover_digest toyEnv [104, 101, 108, 108, 111]).2.2.1 ((toySig 1).set 64 28)
      toyState rfl (Or.inr (by decide))⟩

/-! ## The listing of accounts -/

/-- C7: when the listing succeeds, `ListAccounts` returns no error and one address per entry,
in listing order, the address at each position being the 20-byte address made of the address
bytes of the entry's public key (those bytes themselves when there are 20 of them); when the
listing fails, it returns that error with the empty sequence. -/
theorem ListAccounts_addresses (env : Env W KB PK EPK E) (s : State W KB) :
    (∀ infos s1, getKeybaseInfo env s = (.ok infos, s1) →
      ListAccounts env s
        = ((infos.map (fun info => BytesToAddress (env.address info.pubKey)), none), s1) ∧
      (ListAccounts env s).1.1.length = infos.length ∧
      (∀ a ∈ (ListAccounts env s).1.1, a.length = 20) ∧
      ∀ (i : Nat) (hi : i < infos.length),
        (ListAccounts env s).1.1[i]? = some (BytesToAddress (env.address infos[i].pubKey)) ∧
        ((env.address infos[i].pubKey).length = 20 →
          (ListAccounts env s).1.1[i]? = some (env.address infos[i].pubKey))) ∧
    (∀ err s1, getKeybaseInfo env s = (.error err, s1) →
      ListAccounts env s = (([], some err), s1)) := by
  constructor
  · intro infos s1 hlist
    have hL : ListAccounts env s
        = ((infos.map (fun info => BytesToAddress (env.address info.pubKey)), none), s1) := by
      unfold ListAccounts
      rw [hlist]
      simp only [foldl_append_singleton, List.nil_append]
    have hget : ∀ (i : Nat) (hi : i < infos.length),
        (ListAccounts env s).1.1[i]? = some (BytesToAddress (env.address infos[i].pubKey)) := by
      intro i hi
      rw [hL]
      simp [List.getElem?_map, List.getElem?_eq_getElem hi]
    refine ⟨hL, by rw [hL]; simp, ?_, ?_⟩
    · intro a ha
      rw [hL] at ha
      obtain ⟨info, -, rfl⟩ := List.mem_map.mp ha
      exact BytesToAddress_length _
    · intro i hi
      refine ⟨hget i hi, fun h20 => ?_⟩
      rw [hget i hi, BytesToAddress_of_length _ h20]
  · intro err s1 hlist
    unfold ListAccounts
    rw [hlist]

/-- The accounts of the toy keyring, and the empty result when its constructor fails. -/
theorem ListAccounts_addresses_witness :
    ListAccounts toyEnv toyState
      = (([toyAddress 1, toyAddress 2, toyAddress 2], none),
          { keybase := some 7, world := 2, trace := [.newKeyring, .list 7] }) ∧
    ListAccounts toyEnv toyState0
      = (([], some (.ext "no keyring")),
          { keybase := none, world := 1, trace := [.newKeyring] }) :=
  ⟨((ListAccounts_addresses toyEnv toyState).1 toyInfos
      { keybase := some 7, world := 2, trace := [.newKeyring, .list 7] } rfl).1,
   (ListAccounts_addresses toyEnv toyState0).2 (.ext "no keyring")
      { keybase := none, world := 1, trace := [.newKeyring] } rfl⟩

/-! ## Lazy construction of the keyring handle -/

/-- The calls one run of `getKeybaseInfo` adds to the trace. -/
theorem getKeybaseInfo_trace (env : Env W KB PK EPK E) (s : State W KB) :
    (∀ kb, s.keybase = some kb → (getKeybaseInfo env s).2.trace = s.trace ++ [.list kb]) ∧
    (∀ err w, s.keybase = none → env.newKeyring s.world = (.error err, w) →
      getKeybaseInfo env s = (.error (.ext err),
        { keybase := none, world := w, trace := s.trace ++ [.newKeyring] })) ∧
    (∀ kb w, s.keybase = none → env.newKeyring s.world = (.ok kb, w) →
      (getKeybaseInfo env s).2.keybase = some kb ∧
      (getKeybaseInfo env s).2.trace = s.trace ++ [.newKeyring, .list kb]) := by
  refine ⟨?_, ?_, ?_⟩
  · intro kb hk
    rw [getKeybaseInfo_of_some env s kb hk]
    unfold keybaseList
    rw [hk]
    simp only
    rcases env.list kb s.world with ⟨r, w⟩
    cases r <;> rfl
  · intro err w hk hn
    unfold getKeybaseInfo
    rw [hk]
    simp only [hn]
  · intro kb w hk hn
    unfold getKeybaseInfo
    rw [hk]
    simp only [hn]
    unfold keybaseList
    simp only
    rcases env.list kb w with ⟨r, w1⟩
    cases r <;> simp

/-- C10: a call of `getKeybaseInfo` invokes the constructor exactly when the handle is unset
at its start; a construction that succeeds stores the handle it built, and in every later
sequence of calls the handle stays the same and the constructor is not invoked again; a
construction that fails makes the call return the constructor's error with no listing and
the handle still unset, so that the next call invokes the constructor again. -/
theorem getKeybaseInfo_constructs_lazily (env : Env W KB PK EPK E) (s : State W KB) :
    (Call.newKeyring ∈ (getKeybaseInfo env s).2.trace.drop s.trace.length ↔ s.keybase = none) ∧
    (∀ kb w, s.keybase = none → env.newKeyring s.world = (.ok kb, w) →
      (getKeybaseInfo env s).2.keybase = some kb) ∧
    (∀ kb, (getKeybaseInfo env s).2.keybase = some kb → ∀ n,
      (callsOfGetKeybaseInfo env n (getKeybaseInfo env s).2).keybase = some kb ∧
      constructions (callsOfGetKeybaseInfo env n (getKeybaseInfo env s).2).trace
        = constructions (getKeybaseInfo env s).2.trace) ∧
    (∀ err w, s.keybase = none → env.newKeyring s.world = (.error err, w) →
      getKeybaseInfo env s = (.error (.ext err),
        { keybase := none, world := w, trace := s.trace ++ [.newKeyring] }) ∧
      Call.newKeyring ∈ (getKeybaseInfo env (getKeybaseInfo env s).2).2.trace.drop
        (getKeybaseInfo env s).2.trace.length) := by
  obtain ⟨hsome, herr, hok⟩ := getKeybaseInfo_trace env s
  have hiff : ∀ t : State W KB,
      (Call.newKeyring ∈ (getKeybaseInfo env t).2.trace.drop t.trace.length ↔ t.keybase = none) := by
    intro t
    obtain ⟨tsome, terr, tok⟩ := getKeybaseInfo_trace env t
    cases hk : t.keybase with
    | some kb => rw [tsome kb hk]; simp
    | none =>
      rcases hn : env.newKeyring t.world with ⟨r, w⟩
      cases r with
      | error err => rw [terr err w hk hn]; simp
      | ok kb => rw [(tok kb w hk hn).2]; simp
  refine ⟨hiff s, fun kb w hk hn => (hok kb w hk hn).1,
    fun kb hkb n => calls_of_some env kb n _ hkb, ?_⟩
  intro err w hk hn
  refine ⟨herr err w hk hn, (hiff _).mpr ?_⟩
  rw [herr err w hk hn]

/-- The toy keyring, whose constructor fails once: the first call returns the error and
leaves the handle unset, the second call builds the handle 7, and three more calls keep it
and construct nothing. -/
theorem getKeybaseInfo_constructs_lazily_witness :
    getKeybaseInfo toyEnv toyState0
      = (.error (.ext "no keyring"), { keybase := none, world := 1, trace := [.newKeyring] }) ∧
    (getKeybaseInfo toyEnv toyState).2.keybase = some 7 ∧
    (callsOfGetKeybaseInfo toyEnv 3 (getKeybaseInfo toyEnv toyState).2).keybase = some 7 ∧
    constructions (callsOfGetKeybaseInfo toyEnv 3 (getKeybaseInfo toyEnv toyState).2).trace
      = constructions (getKeybaseInfo toyEnv toyState).2.trace :=
  ⟨((getKeybaseInfo_constructs_lazily toyEnv toyState0).2.2.2 "no keyring" 1 rfl rfl).1,
   (getKeybaseInfo_constructs_lazily toyEnv toyState).2.1 7 2 rfl rfl,
   (getKeybaseInfo_constructs_lazily toyEnv toyState).2.2.1 7 rfl 3⟩

end PersonalAPI
